import Mathlib

/-!
Shallow embedding of the studio time-slot booking application
(services/bookingService.ts, services/authService.ts,
components/BookingModal.tsx, components/EditBookingModal.tsx).

Timestamps are modelled as natural numbers counting minutes since an
arbitrary epoch; a calendar day `d` covers minutes `d * 1440` through
`d * 1440 + 1439`, matching the source's `T00:00:00 .. T23:59:59`
day window at minute resolution.  The external Supabase store is
modelled as an explicit list of rows threaded through each operation.
-/

namespace StudioBooking

/-- Booking status vocabulary from bookingService.ts line 24:
`"pending" | "approved" | "rejected" | "today"`. -/
inductive BookingStatus where
  | pending
  | approved
  | rejected
  | today
  deriving DecidableEq

/-- User role vocabulary from authService.ts line 25: `"admin" | "user"`. -/
inductive UserRole where
  | admin
  | user
  deriving DecidableEq

/-- Booking row shape, from the `Booking` interface of bookingService.ts
(lines 30-39).  `start_time`, `end_time` and `created_at` are ISO
timestamps in the source, modelled as minutes since the epoch. -/
structure Booking where
  id : String
  user_id : String
  user_name : String
  start_time : Nat
  end_time : Nat
  status : BookingStatus
  reason : String
  created_at : Nat
  deriving DecidableEq

/-- Payload for creating a booking, from the `NewBooking` interface of
bookingService.ts (lines 44-50).  It has no status field. -/
structure NewBooking where
  user_id : String
  user_name : String
  start_time : Nat
  end_time : Nat
  reason : String
  deriving DecidableEq

/-- User profile returned by the auth service, from the `UserProfile`
interface of authService.ts (lines 40-45). -/
structure UserProfile where
  id : String
  email : String
  name : String
  role : UserRole
  deriving DecidableEq

/-- Row of the `profiles` table.  The schema type for `profiles` has no
role column (database types file), yet authService.ts reads
`profile.role`; the column is therefore nullable in practice and is
modelled as an `Option`. -/
structure ProfileRow where
  id : String
  email : String
  name : String
  role : Option UserRole
  deriving DecidableEq

/-- createBooking, from bookingService.ts lines 215-240.  The insert
payload is the object literal with the caller's fields spread first and
`status: "pending"` written last, so any status value the caller
smuggles into the payload is overwritten (JS object-spread semantics);
`callerStatus` models such a smuggled value and is deliberately ignored.
The database supplies `id` and `created_at` (`newId`, `now`); the
`.select().single()` suffix returns the inserted row, modelled by the
second component of the result. -/
def createBooking (store : List Booking) (newId : String) (now : Nat)
    (booking : NewBooking) (_callerStatus : Option BookingStatus) :
    List Booking × Booking :=
  let row : Booking :=
    { id := newId
      user_id := booking.user_id
      user_name := booking.user_name
      start_time := booking.start_time
      end_time := booking.end_time
      status := BookingStatus.pending
      reason := booking.reason
      created_at := now }
  (store ++ [row], row)

/-- Outcomes of the booking-submission form, from BookingModal.tsx
lines 62-116: the "Missing Information" toast, the "Invalid Time Range"
toast, and the "Failed to create booking" toast (remote failure, not
reachable in this model of the store). -/
inductive SubmitError where
  | missingInformation
  | invalidTimeRange
  | createFailed
  deriving DecidableEq

/-- A submit error reports malformed caller input (the spec's
`ValidationError` taxonomy entry: missing required field, or end before
start), as opposed to a remote-store failure. -/
def SubmitError.isValidation : SubmitError → Bool
  | SubmitError.missingInformation => true
  | SubmitError.invalidTimeRange => true
  | SubmitError.createFailed => false

/-- handleSubmit, from BookingModal.tsx lines 62-116.  The source first
rejects when the user, either time field, or a non-blank reason is
missing, then rejects when `endDateTime <= startDateTime`, and only then
calls `addBooking` (which delegates to createBooking with
`reason.trim()`).  An `Except.error` result persists nothing. -/
def handleSubmit (store : List Booking) (newId : String) (now : Nat)
    (user : Option UserProfile) (startTime endTime : Option Nat)
    (reason : String) : Except SubmitError (List Booking × Booking) :=
  match user, startTime, endTime with
  | some u, some s, some e =>
      if reason.trim = "" then Except.error SubmitError.missingInformation
      else if e ≤ s then Except.error SubmitError.invalidTimeRange
      else Except.ok (createBooking store newId now
        { user_id := u.id
          user_name := u.name
          start_time := s
          end_time := e
          reason := reason.trim } none)
  | _, _, _ => Except.error SubmitError.missingInformation

/-- Two-digit zero padding used by the `"2-digit"` option of
`toLocaleTimeString`. -/
def pad2 (n : Nat) : String :=
  if n < 10 then "0" ++ toString n else toString n

/-- Formatting of one slot label, from bookingService.ts lines 382-386:
`current.toLocaleTimeString("en-US", \x7bhour: "2-digit", minute:
"2-digit", hour12: false\x7d)`.  For the en-US locale, `hour12: false`
selects the h24 hour cycle, so the midnight hour renders as `24`, and
every other hour as itself, each zero-padded to two digits. -/
def formatTimeSlot (t : Nat) : String :=
  let h := t / 60 % 24
  let m := t % 60
  pad2 (if h = 0 then 24 else h) ++ ":" ++ pad2 m

/-- The hourly walk of getTakenSlots, from bookingService.ts lines
375-391: `let current = new Date(start); while (current < end) \x7b push
label; current.setHours(current.getHours() + 1) \x7d`.  One step
advances the cursor by sixty minutes. -/
def slotWalk (current stop : Nat) : List String :=
  if h : current < stop then
    formatTimeSlot current :: slotWalk (current + 60) stop
  else []
termination_by stop - current
decreasing_by omega

/-- First minute of calendar day `date` (the source's `T00:00:00`). -/
def dayStart (date : Nat) : Nat := date * 1440

/-- Last minute of calendar day `date` (the source's `T23:59:59` bound,
inclusive, at minute resolution). -/
def dayEnd (date : Nat) : Nat := date * 1440 + 1439

/-- The row filter of the getTakenSlots query, from bookingService.ts
lines 355-360: `.gte("start_time", dateT00:00:00).lte("start_time",
dateT23:59:59).in("status", ["pending", "approved"])`.  The query
specifies no ordering; collection order stands in for the store's. -/
def bookingsForSlots (date : Nat) (store : List Booking) : List Booking :=
  store.filter (fun b =>
    (decide (dayStart date ≤ b.start_time) &&
     decide (b.start_time ≤ dayEnd date)) &&
    (decide (b.status = BookingStatus.pending) ||
     decide (b.status = BookingStatus.approved)))

/-- getTakenSlots, from bookingService.ts lines 350-399: for each
booking returned by the query, push the labels of its hourly walk onto
the accumulating `takenSlots` array. -/
def getTakenSlots (date : Nat) (store : List Booking) : List String :=
  (bookingsForSlots date store).foldl
    (fun taken b => taken ++ slotWalk b.start_time b.end_time) []

/-- Insertion step for the store's `ORDER BY created_at DESC`; rows
already in place with a later-or-equal creation time stay ahead. -/
def insertByCreatedDesc (b : Booking) : List Booking → List Booking
  | [] => [b]
  | a :: rest =>
      if b.created_at ≤ a.created_at then a :: insertByCreatedDesc b rest
      else b :: a :: rest

/-- Ordering contract `.order("created_at", \x7b ascending: false \x7d)`
requested by the listing queries of bookingService.ts. -/
def sortByCreatedDesc (l : List Booking) : List Booking :=
  l.foldr insertByCreatedDesc []

/-- The database visible to the booking service.  bookingService.ts
addresses two tables: `bookings` (used by every function except one) and
`slots` (addressed only by fetchBookingsByStatus, line 188). -/
structure BookingDatabase where
  bookings : List Booking
  slots : List Booking
  deriving DecidableEq

/-- fetchBookingsByStatus, from bookingService.ts lines 182-204.  Its
doc comment says it retrieves bookings with a specific status, but the
query reads `.from("slots")`, not the `bookings` table. -/
def fetchBookingsByStatus (db : BookingDatabase) (status : BookingStatus) :
    List Booking :=
  sortByCreatedDesc (db.slots.filter (fun b => decide (b.status = status)))

/-- Fetch-by-status as the spec's §4.4 store facade describes it: booking
records from the booking store with the given status, creation time
descending.  Stated separately so it can be compared with the source's
fetchBookingsByStatus. -/
def fetchBookingsByStatusSpec (db : BookingDatabase)
    (status : BookingStatus) : List Booking :=
  sortByCreatedDesc (db.bookings.filter (fun b => decide (b.status = status)))

/-- getUserProfile, from authService.ts lines 220-274.  `maybeSingle()`
on the id-keyed query is modelled by `find?`; a missing row yields the
error string of line 239, and the role defaults through
`(profile?.role as UserRole) || "user"` (line 255). -/
def getUserProfile (profiles : List ProfileRow) (userId : String) :
    Except String UserProfile :=
  match profiles.find? (fun p => decide (p.id = userId)) with
  | none => Except.error "User profile not found"
  | some profile =>
      Except.ok
        { id := profile.id
          email := profile.email
          name := profile.name
          role := profile.role.getD UserRole.user }

/-- updateBookingStatus, from bookingService.ts lines 288-312: the store
overwrites the status field of every row whose id matches
(`.update(\x7b status \x7d).eq("id", id)`). -/
def updateBookingStatus (store : List Booking) (id : String)
    (status : BookingStatus) : List Booking :=
  store.map (fun b => if b.id = id then { b with status := status } else b)

/-- Self-exclusion filter of EditBookingModal.tsx (lines 50-57): keep a
taken-slot label when it is lexicographically before the booking's own
start label or at/after its own end label (`slot < bookingStart || slot
>= bookingEnd` on `HH:mm` strings). -/
def filteredSlots (slots : List String) (bookingStart bookingEnd : String) :
    List String :=
  slots.filter (fun slot =>
    decide (slot < bookingStart) || decide (bookingEnd ≤ slot))

/-- Closed form of the hourly walk: it visits exactly the minutes
`current + 60 * i` for `i` below the hour count of the interval. -/
lemma slotWalk_eq_range (s e : Nat) :
    slotWalk s e =
      (List.range ((e - s + 59) / 60)).map (fun i => formatTimeSlot (s + 60 * i)) := by
  induction s, e using slotWalk.induct with
  | case1 current stop h ih =>
      rw [slotWalk, dif_pos h, ih]
      have hn : (stop - current + 59) / 60 = (stop - (current + 60) + 59) / 60 + 1 := by
        omega
      rw [hn, List.range_succ_eq_map, List.map_cons, List.map_map]
      congr 1
      apply List.map_congr_left
      intro i _
      congr 1
      omega
  | case2 current stop h =>
      rw [slotWalk, dif_neg h]
      have hz : (stop - current + 59) / 60 = 0 := by omega
      rw [hz]
      simp

/-- Length of the hourly walk: the number of started hours in the
interval, zero when the interval is empty or inverted. -/
lemma slotWalk_length (s e : Nat) :
    (slotWalk s e).length = (e - s + 59) / 60 := by
  rw [slotWalk_eq_range]
  simp

/-- Folding the slot accumulator over bookings whose walks are all empty
leaves the accumulator unchanged. -/
lemma foldl_slots_all_empty (l : List Booking) (acc : List String)
    (h : ∀ b ∈ l, slotWalk b.start_time b.end_time = []) :
    l.foldl (fun taken b => taken ++ slotWalk b.start_time b.end_time) acc = acc := by
  induction l generalizing acc with
  | nil => rfl
  | cons x xs ih =>
      rw [List.foldl_cons, h x (List.mem_cons_self x xs), List.append_nil]
      exact ih acc (fun b hb => h b (List.mem_cons_of_mem x hb))

/-- Appending a booking whose hourly walk is empty does not change the
taken-slot computation. -/
lemma getTakenSlots_append_empty_walk (date : Nat) (store : List Booking)
    (b : Booking) (hwalk : slotWalk b.start_time b.end_time = []) :
    getTakenSlots date (store ++ [b]) = getTakenSlots date store := by
  have hsplit : bookingsForSlots date (store ++ [b]) =
      bookingsForSlots date store ++ bookingsForSlots date [b] := by
    simp [bookingsForSlots, List.filter_append]
  simp only [getTakenSlots]
  rw [hsplit, List.foldl_append]
  apply foldl_slots_all_empty
  intro x hx
  simp only [bookingsForSlots] at hx
  have hxb : x ∈ [b] := List.mem_of_mem_filter hx
  simp only [List.mem_singleton] at hxb
  rw [hxb]
  exact hwalk

/-- C1: for every new-booking request with start < end, createBooking
persists a record whose status is `pending`, regardless of any status
value the caller supplies, and returns the persisted record (the new
store is the old store with exactly the returned row appended). -/
theorem createBooking_forces_pending (store : List Booking) (newId : String)
    (now : Nat) (booking : NewBooking) (callerStatus : Option BookingStatus)
    (hrange : booking.start_time < booking.end_time) :
    (createBooking store newId now booking callerStatus).2.status =
        BookingStatus.pending ∧
    (createBooking store newId now booking callerStatus).1 =
        store ++ [(createBooking store newId now booking callerStatus).2] := by
  exact ⟨rfl, rfl⟩

/-- Witness for C1: a concrete request from minute 0 to minute 60 whose
caller even smuggles in an `approved` status is persisted as `pending`. -/
theorem createBooking_forces_pending_witness :
    (createBooking [] "b1" 5 ⟨"u1", "Ada", 0, 60, "practice"⟩
        (some BookingStatus.approved)).2.status = BookingStatus.pending ∧
    (createBooking [] "b1" 5 ⟨"u1", "Ada", 0, 60, "practice"⟩
        (some BookingStatus.approved)).1 =
      [] ++ [(createBooking [] "b1" 5 ⟨"u1", "Ada", 0, 60, "practice"⟩
        (some BookingStatus.approved)).2] :=
  createBooking_forces_pending [] "b1" 5 ⟨"u1", "Ada", 0, 60, "practice"⟩
    (some BookingStatus.approved) (by decide)

/-- C2: for every pair of timestamps with end ≤ start, the submit path of
Create fails with a validation error (an `Except.error` carrying one of
the malformed-input errors of the spec's ValidationError taxonomy), so
nothing is persisted and the failure is reported to the caller. -/
theorem handleSubmit_inverted_range_fails (store : List Booking)
    (newId : String) (now : Nat) (user : Option UserProfile) (s e : Nat)
    (reason : String) (hrange : e ≤ s) :
    ∃ err, handleSubmit store newId now user (some s) (some e) reason =
        Except.error err ∧ err.isValidation = true := by
  cases user with
  | none => exact ⟨SubmitError.missingInformation, rfl, rfl⟩
  | some u =>
      by_cases hr : reason.trim = ""
      · exact ⟨SubmitError.missingInformation, by simp [handleSubmit, hr], rfl⟩
      · exact ⟨SubmitError.invalidTimeRange,
          by simp [handleSubmit, hr, hrange], rfl⟩

/-- Witness for C2: a concrete zero-length request (end = start = minute
60) is rejected with a validation error. -/
theorem handleSubmit_inverted_range_fails_witness :
    ∃ err, handleSubmit [] "b1" 5 (some ⟨"u1", "ada@studio", "Ada", UserRole.user⟩)
        (some 60) (some 60) "practice" =
      Except.error err ∧ err.isValidation = true :=
  handleSubmit_inverted_range_fails [] "b1" 5
    (some ⟨"u1", "ada@studio", "Ada", UserRole.user⟩) 60 60 "practice"
    (by decide)

/-- C3: the slot walk visits exactly the hours start, start + 1h, ...
strictly below the end timestamp (closed form over `List.range`), and a
pending 10:00-12:00 booking yields exactly the labels "10:00" and
"11:00" — not "12:00". -/
theorem getTakenSlots_hourly_walk :
    (∀ s e : Nat, slotWalk s e =
        (List.range ((e - s + 59) / 60)).map (fun i => formatTimeSlot (s + 60 * i))) ∧
    getTakenSlots 0
        [⟨"1", "u1", "Ada", 600, 720, BookingStatus.pending, "Band Practice", 0⟩] =
      ["10:00", "11:00"] := by
  refine ⟨slotWalk_eq_range, ?_⟩
  have hq : bookingsForSlots 0
      [⟨"1", "u1", "Ada", 600, 720, BookingStatus.pending, "Band Practice", 0⟩] =
      [⟨"1", "u1", "Ada", 600, 720, BookingStatus.pending, "Band Practice", 0⟩] := by
    decide
  simp only [getTakenSlots]
  rw [hq]
  simp only [List.foldl_cons, List.foldl_nil, List.nil_append]
  rw [slotWalk_eq_range]
  decide

/-- C4: the taken-slot query keeps a stored booking exactly when its
status is `pending` or `approved` and its start lies inside the target
day; in particular no `rejected` booking is ever part of the occupancy
computation. -/
theorem getTakenSlots_status_filter (date : Nat) (store : List Booking)
    (b : Booking) :
    (b.status = BookingStatus.rejected → b ∉ bookingsForSlots date store) ∧
    (b ∈ bookingsForSlots date store ↔
      b ∈ store ∧
        (b.status = BookingStatus.pending ∨ b.status = BookingStatus.approved) ∧
        dayStart date ≤ b.start_time ∧ b.start_time ≤ dayEnd date) := by
  constructor
  · intro hrej hmem
    simp only [bookingsForSlots, List.mem_filter, Bool.and_eq_true,
      Bool.or_eq_true, decide_eq_true_eq, hrej] at hmem
    rcases hmem with ⟨-, -, h | h⟩ <;> cases h
  · simp only [bookingsForSlots, List.mem_filter, Bool.and_eq_true,
      Bool.or_eq_true, decide_eq_true_eq]
    tauto

/-- Witness for C4: a concrete rejected booking sitting in the store is
excluded from the occupancy query of its own day. -/
theorem getTakenSlots_status_filter_witness :
    (⟨"4", "u3", "Jane", 780, 900, BookingStatus.rejected, "DJ Set", 0⟩ : Booking) ∉
      bookingsForSlots 0
        [⟨"4", "u3", "Jane", 780, 900, BookingStatus.rejected, "DJ Set", 0⟩] :=
  (getTakenSlots_status_filter 0
    [⟨"4", "u3", "Jane", 780, 900, BookingStatus.rejected, "DJ Set", 0⟩]
    ⟨"4", "u3", "Jane", 780, 900, BookingStatus.rejected, "DJ Set", 0⟩).1 rfl

/-- C5 evidence: fetchBookingsByStatus reads the `slots` table, so with a
pending booking present in the booking store (`bookings` table) and an
empty `slots` table it returns nothing, while the spec's fetch-by-status
over the booking store returns that booking. -/
theorem fetchBookingsByStatus_reads_slots_table :
    fetchBookingsByStatus
        ⟨[⟨"2", "u2", "Jane", 840, 960, BookingStatus.pending, "Vocals", 7⟩], []⟩
        BookingStatus.pending = [] ∧
    fetchBookingsByStatusSpec
        ⟨[⟨"2", "u2", "Jane", 840, 960, BookingStatus.pending, "Vocals", 7⟩], []⟩
        BookingStatus.pending =
      [⟨"2", "u2", "Jane", 840, 960, BookingStatus.pending, "Vocals", 7⟩] := by
  decide

/-- C6: when a profile row exists for the identity but stores no role,
getUserProfile succeeds and resolves the role to `user`. -/
theorem getUserProfile_missing_role_defaults_user (profiles : List ProfileRow)
    (userId : String) (row : ProfileRow)
    (hfind : profiles.find? (fun p => decide (p.id = userId)) = some row)
    (hrole : row.role = none) :
    getUserProfile profiles userId =
      Except.ok ⟨row.id, row.email, row.name, UserRole.user⟩ := by
  simp [getUserProfile, hfind, hrole]

/-- Witness for C6: a concrete role-less profile row resolves to role
`user`. -/
theorem getUserProfile_missing_role_defaults_user_witness :
    getUserProfile [⟨"u1", "ada@studio", "Ada", none⟩] "u1" =
      Except.ok ⟨"u1", "ada@studio", "Ada", UserRole.user⟩ :=
  getUserProfile_missing_role_defaults_user
    [⟨"u1", "ada@studio", "Ada", none⟩] "u1"
    ⟨"u1", "ada@studio", "Ada", none⟩ (by decide) rfl

/-- C7: when no profile row at all is keyed by the identity,
getUserProfile fails with the not-found error and carries no profile
data — an outcome distinct from the role-defaulting success case. -/
theorem getUserProfile_no_profile_not_found (profiles : List ProfileRow)
    (userId : String) (habsent : ∀ p ∈ profiles, p.id ≠ userId) :
    getUserProfile profiles userId = Except.error "User profile not found" := by
  have hnone : profiles.find? (fun p => decide (p.id = userId)) = none := by
    rw [List.find?_eq_none]
    intro p hp
    simpa using habsent p hp
  simp [getUserProfile, hnone]

/-- Witness for C7: a store holding only somebody else's profile yields
the not-found error for identity "u1". -/
theorem getUserProfile_no_profile_not_found_witness :
    getUserProfile [⟨"u2", "jane@studio", "Jane", some UserRole.admin⟩] "u1" =
      Except.error "User profile not found" :=
  getUserProfile_no_profile_not_found
    [⟨"u2", "jane@studio", "Jane", some UserRole.admin⟩] "u1" (by decide)

/-- C8: updateBookingStatus is idempotent — applying the same status
update twice leaves the store exactly as applying it once. -/
theorem updateBookingStatus_idempotent (store : List Booking) (id : String)
    (status : BookingStatus) :
    updateBookingStatus (updateBookingStatus store id status) id status =
      updateBookingStatus store id status := by
  simp only [updateBookingStatus, List.map_map]
  apply List.map_congr_left
  intro b _
  by_cases h : b.id = id <;> simp [Function.comp, h]

/-- C9: the edit-modal self-exclusion keeps a label from the taken set
exactly when it is lexicographically before the booking's own start
label or at/after its own end label. -/
theorem editModal_self_exclusion (slots : List String)
    (bookingStart bookingEnd L : String) :
    L ∈ filteredSlots slots bookingStart bookingEnd ↔
      L ∈ slots ∧ (L < bookingStart ∨ bookingEnd ≤ L) := by
  simp [filteredSlots, List.mem_filter]

/-- Witness for C9: for a 10:00-12:00 booking, the foreign label "09:00"
survives the self-exclusion filter. -/
theorem editModal_self_exclusion_witness :
    "09:00" ∈ filteredSlots ["09:00", "10:00"] "10:00" "12:00" :=
  (editModal_self_exclusion ["09:00", "10:00"] "10:00" "12:00" "09:00").mpr
    ⟨by decide, Or.inl (by rw [String.lt_iff_toList_lt]; decide)⟩

/-- C10: the hourly walk always terminates with exactly one label per
started hour of the interval (so its output length is the hour count,
finite for every input), and a booking whose end is at or before its
start contributes zero labels to getTakenSlots. -/
theorem slotWalk_terminates_and_empty_interval (s e date : Nat)
    (store : List Booking) (b : Booking) :
    (slotWalk s e).length = (e - s + 59) / 60 ∧
    (b.end_time ≤ b.start_time →
      getTakenSlots date (store ++ [b]) = getTakenSlots date store) := by
  refine ⟨slotWalk_length s e, fun hle => ?_⟩
  apply getTakenSlots_append_empty_walk
  rw [slotWalk, dif_neg (by omega)]

/-- Witness for C10: the 10:00-12:00 walk has exactly two labels, and a
concrete inverted booking (start minute 720, end minute 600) adds
nothing to the taken slots of its day. -/
theorem slotWalk_terminates_and_empty_interval_witness :
    (slotWalk 600 720).length = (720 - 600 + 59) / 60 ∧
    getTakenSlots 0
        ([] ++ [⟨"9", "u1", "Ada", 720, 600, BookingStatus.pending, "idle", 0⟩]) =
      getTakenSlots 0 [] :=
  ⟨(slotWalk_terminates_and_empty_interval 600 720 0 []
      ⟨"9", "u1", "Ada", 720, 600, BookingStatus.pending, "idle", 0⟩).1,
   (slotWalk_terminates_and_empty_interval 600 720 0 []
      ⟨"9", "u1", "Ada", 720, 600, BookingStatus.pending, "idle", 0⟩).2 (by decide)⟩

end StudioBooking
